import Mathlib

/-!
Shallow embedding of the progress-bar core of `utilhub` (src/utilhub/progressBar.go).

Modelling conventions:
* `uint32` values are `Nat` with wrap-around written explicitly as `% U32`
  (`atomic.AddUint32` wraps modulo 2^32); Go `int` is `Int`.
* Go `float64` arithmetic is modelled by exact rational arithmetic (`ℚ`);
  `int(x)` conversion is truncation toward zero (`goTrunc`).
* Wall-clock instants are abstract integers supplied as parameters
  (`time.Now()` at construction and at completion).
* The `time.After` ticker is modelled by the flag `tickerArmed` (channel
  non-nil) together with a per-call boolean oracle `tick` that states whether
  the deadline had elapsed when the `select` polled it; a nil ticker channel
  never fires, so a `select` with `default` always takes the default branch.
* The print channel is modelled by the list of frames each operation sends
  plus the flag `printChannelClosed`; sending on a closed channel and closing
  a closed channel are the Go run-time panics `GoPanic.closedChannelSend` and
  `GoPanic.doubleClose`, surfaced through `Except`.
-/

namespace Utilhub

attribute [local semireducible] Rat.mul Rat.add Rat.sub Rat.inv Rat.ofScientific

/-- Modulus of Go's `uint32` arithmetic. -/
def U32 : Nat := 4294967296

/-- Go's `int(x)` conversion on a `float64`, truncation toward zero,
applied to the exact rational value (numerator `tdiv` denominator). -/
def goTrunc (q : ℚ) : Int := q.num.tdiv (q.den : Int)

/-- Modelled from the spec: the ANSI bright-cyan color constant used as the
default bar color (`BrightCyan` in the Go sources; its defining file is not
under src). -/
def BrightCyan : String := "\x1b[96m"

/-- Modelled from the spec: the ANSI reset code (`Reset` in the Go sources;
its defining file is not under src). -/
def Reset : String := "\x1b[0m"

/-- Go run-time panics that the progress-bar code can trigger through its
print channel. -/
inductive GoPanic where
  | closedChannelSend
  | doubleClose
deriving DecidableEq, Repr

/-- The `barMessage` struct: one frame passed through the print channel. -/
structure barMessage where
  filledLength : Int
  percentage : ℚ
deriving DecidableEq, Repr

/-- The `ProgressBar` struct.  `tickerArmed` models `ticker != nil`;
`printChannelClosed` models whether `printChannel` has been closed;
`location` records the resolved time zone name. -/
structure ProgressBar where
  name : String
  total : Nat
  barLength : Int
  precision : Int
  currentProcess : Nat
  lastFilledLength : Int
  timezone : String
  location : String
  startTime : Int
  endTime : Int
  complete : Bool
  updateInterval : Int
  tickerArmed : Bool
  barColor : String
  resetColor : String
  printChannelClosed : Bool
deriving DecidableEq, Repr

/-- The closed set of `BarOption` configuration functions
(`WithTracking`, `WithTimeZone`, `WithTimeControl`, `WithDisplay`). -/
inductive BarOption where
  | withTracking (precision : Int)
  | withTimeZone (timeZoneName : String)
  | withTimeControl (updateInterval : Int)
  | withDisplay (color : String)
deriving DecidableEq, Repr

/-- Application of one `BarOption` closure to the bar under construction. -/
def applyOption (pb : ProgressBar) : BarOption → ProgressBar
  | .withTracking p => { pb with precision := p }
  | .withTimeZone z => { pb with timezone := z }
  | .withTimeControl i => { pb with updateInterval := i }
  | .withDisplay c => { pb with barColor := c }

/-- The default `ProgressBar` record built at the top of `NewProgressBar`,
before options are applied and the zone is resolved. -/
def defaultBar (name : String) (total : Nat) (barLength : Int) : ProgressBar :=
  { name := name
    total := total
    barLength := barLength
    precision := 2
    currentProcess := 0
    lastFilledLength := 0
    timezone := "Asia/Shanghai"
    location := ""
    startTime := 0
    endTime := 0
    complete := false
    updateInterval := 1000
    tickerArmed := false
    barColor := BrightCyan
    resetColor := Reset
    printChannelClosed := false }

/-- The bar after the option closures have been applied, still before zone
resolution. -/
def configuredBar (name : String) (total : Nat) (barLength : Int)
    (opts : List BarOption) : ProgressBar :=
  opts.foldl applyOption (defaultBar name total barLength)

/-- The fully initialised bar `NewProgressBar` returns on the success path:
location and start time set, ticker armed when the update interval is
positive, channels created (open). -/
def buildBar (name : String) (total : Nat) (barLength : Int)
    (opts : List BarOption) (t0 : Int) : ProgressBar :=
  let pb := configuredBar name total barLength opts
  let pb := { pb with location := pb.timezone, startTime := t0 }
  if 0 < pb.updateInterval then { pb with tickerArmed := true } else pb

/-- `NewProgressBar`.  `resolve` abstracts `time.LoadLocation` (whether the
named zone resolves in the environment); `t0` is the construction instant. -/
def NewProgressBar (resolve : String → Bool) (t0 : Int) (name : String)
    (total : Nat) (barLength : Int) (opts : List BarOption) :
    Except String ProgressBar :=
  if resolve (configuredBar name total barLength opts).timezone then
    .ok (buildBar name total barLength opts t0)
  else
    .error ("unknown time zone " ++ (configuredBar name total barLength opts).timezone)

/-- The progress ratio computed in `AddSpecificTimes`:
`float64(pb.currentProcess / pb.total)` — uint32 integer division *before*
the conversion to float. -/
def addProgress (cur total : Nat) : ℚ := ((cur / total : Nat) : ℚ)

/-- The progress ratio computed in `UpdateBar`:
`float64(pb.currentProcess) / float64(pb.total)` — float division. -/
def updateProgress (cur total : Nat) : ℚ := (cur : ℚ) / (total : ℚ)

/-- `filledLength := int(progress * float64(pb.barLength))`. -/
def fillOf (progress : ℚ) (barLength : Int) : Int :=
  goTrunc (progress * (barLength : ℚ))

/-- `percentage := progress * 100`, capped at 100. -/
def capPercentage (progress : ℚ) : ℚ :=
  if 100 < progress * 100 then 100 else progress * 100

/-- `UpdateBar` (the spec's `AdvanceOne`).  `tick` is true when the throttle
deadline had elapsed at the `select`.  Returns the new bar state and the
frames sent on the print channel. -/
def UpdateBar (tick : Bool) (pb : ProgressBar) :
    Except GoPanic (ProgressBar × List barMessage) :=
  -- if currentProcess == total, return immediately
  if pb.currentProcess = pb.total then
    .ok (pb, [])
  -- if currentProcess > total, cap it to total and return
  else if pb.total < pb.currentProcess then
    .ok ({ pb with currentProcess := pb.total }, [])
  else
    -- atomic.AddUint32(&pb.currentProcess, 1)
    let cur : Nat := (pb.currentProcess + 1) % U32
    let progress : ℚ := updateProgress cur pb.total
    let filledLength : Int := fillOf progress pb.barLength
    let percentage : ℚ := capPercentage progress
    -- emit only when the fill length changed and the armed ticker has fired;
    -- afterwards the ticker is rearmed, and disarmed when the total is reached
    if filledLength ≠ pb.lastFilledLength ∧ pb.tickerArmed = true ∧ tick = true then
      if pb.printChannelClosed = true then
        .error GoPanic.closedChannelSend
      else
        .ok ({ pb with currentProcess := cur, lastFilledLength := filledLength,
                       tickerArmed := if cur = pb.total then false else true },
             [⟨filledLength, percentage⟩])
    else
      .ok ({ pb with currentProcess := cur,
                     tickerArmed := if cur = pb.total then false else pb.tickerArmed },
           [])

/-- `AddSpecificTimes` (the spec's `AdvanceBy`). -/
def AddSpecificTimes (tick : Bool) (steps : Nat) (pb : ProgressBar) :
    Except GoPanic (ProgressBar × List barMessage) :=
  -- if currentProcess >= total, cap it to total and return
  if pb.total ≤ pb.currentProcess then
    .ok ({ pb with currentProcess := pb.total }, [])
  else
    -- atomic.AddUint32(&pb.currentProcess, steps): no clamping after the add
    let cur : Nat := (pb.currentProcess + steps) % U32
    -- integer division happens before the float conversion here
    let progress : ℚ := addProgress cur pb.total
    let filledLength : Int := fillOf progress pb.barLength
    let percentage : ℚ := capPercentage progress
    if filledLength ≠ pb.lastFilledLength ∧ pb.tickerArmed = true ∧ tick = true then
      if pb.printChannelClosed = true then
        .error GoPanic.closedChannelSend
      else
        .ok ({ pb with currentProcess := cur, lastFilledLength := filledLength,
                       tickerArmed := if cur = pb.total then false else true },
             [⟨filledLength, percentage⟩])
    else
      .ok ({ pb with currentProcess := cur,
                     tickerArmed := if cur = pb.total then false else pb.tickerArmed },
           [])

/-- `Complete`.  `t` is the completion instant (`time.Now()`).  On the normal
path it records the end time, caps the counter to the total, sends the final
100% frame, sets the `complete` flag, disarms the ticker, and closes the
print channel.  When `currentProcess > total` the inner guard is skipped and
the channel is closed with `complete` still false. -/
def Complete (t : Int) (pb : ProgressBar) :
    Except GoPanic (ProgressBar × List barMessage) :=
  if pb.complete = true then
    .ok (pb, [])
  else
    if pb.currentProcess ≤ pb.total then
      if pb.printChannelClosed = true then
        .error GoPanic.closedChannelSend
      else
        .ok ({ pb with endTime := t, currentProcess := pb.total, complete := true,
                       tickerArmed := false, printChannelClosed := true },
             [⟨pb.barLength, (100 : ℚ)⟩])
    else
      if pb.printChannelClosed = true then
        .error GoPanic.doubleClose
      else
        .ok ({ pb with tickerArmed := false, printChannelClosed := true }, [])

/-- The data printed by `Report`'s table rows (the formatted strings are
determined by these values). -/
structure ReportData where
  taskName : String
  startTime : Int
  endTime : Int
  elapsed : Int
  totalTasks : Nat
  completedTasks : Nat
  valueWidth : Int
deriving DecidableEq, Repr

/-- `Report`.  Returns the (unmodified) bar state together with either the
"not yet complete" error (in which case nothing is printed) or the report
data. -/
def Report (pb : ProgressBar) (valueWidth : Int) :
    ProgressBar × Except String ReportData :=
  if pb.complete = false then
    (pb, .error "progress is not yet complete")
  else
    let elapsed := pb.endTime - pb.startTime
    let valueWidth := if valueWidth < 32 then 32 else valueWidth
    (pb, .ok { taskName := pb.name
               startTime := pb.startTime
               endTime := pb.endTime
               elapsed := elapsed
               totalTasks := pb.total
               completedTasks := pb.currentProcess
               valueWidth := valueWidth })

/-- One externally observable operation on a bar. -/
inductive BarOp where
  | update (tick : Bool)
  | add (tick : Bool) (steps : Nat)
  | complete (t : Int)
deriving DecidableEq, Repr

/-- Run one operation. -/
def runOp : BarOp → ProgressBar → Except GoPanic (ProgressBar × List barMessage)
  | .update tick, pb => UpdateBar tick pb
  | .add tick steps, pb => AddSpecificTimes tick steps pb
  | .complete t, pb => Complete t pb

/-- Run a sequence of operations, accumulating the frames sent on the print
channel; a Go panic aborts the run. -/
def runTrace : List BarOp → ProgressBar → Except GoPanic (ProgressBar × List barMessage)
  | [], pb => .ok (pb, [])
  | op :: ops, pb =>
    match runOp op pb with
    | .error e => .error e
    | .ok (pb1, f1) =>
      match runTrace ops pb1 with
      | .error e => .error e
      | .ok (pb2, f2) => .ok (pb2, f1 ++ f2)

/-- Final bar state of a run, `none` on panic. -/
def finalBar (ops : List BarOp) (pb : ProgressBar) : Option ProgressBar :=
  match runTrace ops pb with
  | .ok (pb1, _) => some pb1
  | .error _ => none

/-- Frames sent during a run, `none` on panic. -/
def traceFrames (ops : List BarOp) (pb : ProgressBar) : Option (List barMessage) :=
  match runTrace ops pb with
  | .ok (_, frames) => some frames
  | .error _ => none

/-- The panic of a run, `none` when it completes normally. -/
def traceErr (ops : List BarOp) (pb : ProgressBar) : Option GoPanic :=
  match runTrace ops pb with
  | .ok _ => none
  | .error e => some e

/-- Frames sent by a single operation, `none` on panic. -/
def opFrames (op : BarOp) (pb : ProgressBar) : Option (List barMessage) :=
  match runOp op pb with
  | .ok (_, frames) => some frames
  | .error _ => none

/-- The error message of `Report`, `none` on success. -/
def reportErrMsg (pb : ProgressBar) (w : Int) : Option String :=
  match (Report pb w).2 with
  | .error e => some e
  | .ok _ => none

/-- The report data of `Report`, `none` on the "not yet complete" error. -/
def reportOk (pb : ProgressBar) (w : Int) : Option ReportData :=
  match (Report pb w).2 with
  | .error _ => none
  | .ok r => some r

/-- Boolean check that a frame sequence is non-decreasing in `filledLength`. -/
def framesMonotoneB : List barMessage → Bool
  | [] => true
  | [_] => true
  | a :: b :: rest => decide (a.filledLength ≤ b.filledLength) && framesMonotoneB (b :: rest)

/-- The counter value after a sequence of `AddSpecificTimes` calls, in
isolation: clamp at entry when the total has been reached, otherwise a
wrapping uint32 add. -/
def addCounter (total : Nat) : Nat → List Nat → Nat
  | cur, [] => cur
  | cur, s :: rest =>
    if total ≤ cur then addCounter total total rest
    else addCounter total ((cur + s) % U32) rest

/-- A bar state is reachable when some construction and some panic-free
operation sequence produce it. -/
def Reachable (pb : ProgressBar) : Prop :=
  ∃ (resolve : String → Bool) (t0 : Int) (name : String) (total : Nat)
    (barLength : Int) (opts : List BarOption) (ops : List BarOp)
    (pb0 : ProgressBar) (frames : List barMessage),
    NewProgressBar resolve t0 name total barLength opts = .ok pb0 ∧
    runTrace ops pb0 = .ok (pb, frames)

/-- The key completion invariant: once the `complete` flag is set, the
counter equals the total. -/
def CompleteInv (pb : ProgressBar) : Prop :=
  pb.complete = true → pb.currentProcess = pb.total

/-- The four option-configurable fields of a bar:
(precision, timezone, updateInterval, barColor). -/
def configFields (pb : ProgressBar) : Int × String × Int × String :=
  (pb.precision, pb.timezone, pb.updateInterval, pb.barColor)

/-- Concrete completed bar used to witness the `Report` claim: the result of
`NewProgressBar "x" 10 40` followed by `AddSpecificTimes(3)` and
`Complete()` at instant 7. -/
def pbC7 : ProgressBar :=
  { name := "x"
    total := 10
    barLength := 40
    precision := 2
    currentProcess := 10
    lastFilledLength := 0
    timezone := "Asia/Shanghai"
    location := "Asia/Shanghai"
    startTime := 0
    endTime := 7
    complete := true
    updateInterval := 1000
    tickerArmed := false
    barColor := BrightCyan
    resetColor := Reset
    printChannelClosed := true }

deriving instance DecidableEq for Except

/-! ### Helper lemmas -/

theorem applyOption_complete (pb : ProgressBar) (o : BarOption) :
    (applyOption pb o).complete = pb.complete := by
  cases o <;> rfl

theorem foldl_applyOption_complete (opts : List BarOption) :
    ∀ pb : ProgressBar, (opts.foldl applyOption pb).complete = pb.complete := by
  induction opts with
  | nil => intro pb; rfl
  | cons o rest ih =>
    intro pb
    rw [List.foldl_cons, ih, applyOption_complete]

theorem buildBar_complete (name : String) (total : Nat) (bl : Int)
    (opts : List BarOption) (t0 : Int) :
    (buildBar name total bl opts t0).complete = false := by
  simp only [buildBar]
  split <;> simp [configuredBar, foldl_applyOption_complete, defaultBar]

theorem addCounter_self (total : Nat) (l : List Nat) :
    addCounter total total l = total := by
  induction l with
  | nil => rfl
  | cons s rest ih =>
    simp only [addCounter, if_pos le_rfl]
    exact ih

theorem addCounter_ge_of_ge (total : Nat) (l : List Nat) (cur : Nat) (h : total ≤ cur) :
    total ≤ addCounter total cur l := by
  cases l with
  | nil => simpa [addCounter]
  | cons s rest => simp [addCounter, if_pos h, addCounter_self]

theorem addCounter_reaches (total : Nat) :
    ∀ (l : List Nat) (cur : Nat), cur < total → total < cur + l.sum → cur + l.sum < U32 →
    total ≤ addCounter total cur l := by
  intro l
  induction l with
  | nil =>
    intro cur hlt hover _
    rw [List.sum_nil, Nat.add_zero] at hover
    exact absurd hover (Nat.lt_asymm hlt)
  | cons s rest ih =>
    intro cur hlt hover hwrap
    rw [List.sum_cons] at hover hwrap
    have hnowrap : (cur + s) % U32 = cur + s := Nat.mod_eq_of_lt (by omega)
    simp only [addCounter, if_neg (not_le.mpr hlt), hnowrap]
    by_cases hge : total ≤ cur + s
    · exact addCounter_ge_of_ge total rest (cur + s) hge
    · exact ih (cur + s) (not_le.mp hge) (by omega) (by omega)

theorem AddSpecificTimes_ok (tb : Bool) (s : Nat) (pb : ProgressBar)
    (hch : pb.printChannelClosed = false) :
    ∃ pb1 f1, AddSpecificTimes tb s pb = .ok (pb1, f1) ∧
      pb1.currentProcess =
        (if pb.total ≤ pb.currentProcess then pb.total else (pb.currentProcess + s) % U32) ∧
      pb1.total = pb.total ∧ pb1.printChannelClosed = false := by
  by_cases h1 : pb.total ≤ pb.currentProcess
  · refine ⟨{ pb with currentProcess := pb.total }, [], ?_, ?_, rfl, hch⟩
    · simp only [AddSpecificTimes, if_pos h1]
    · simp [h1]
  · simp only [AddSpecificTimes, if_neg h1]
    by_cases h2 : fillOf (addProgress ((pb.currentProcess + s) % U32) pb.total) pb.barLength ≠
        pb.lastFilledLength ∧ pb.tickerArmed = true ∧ tb = true
    · rw [if_pos h2, if_neg (by simp [hch])]
      exact ⟨_, _, rfl, by simp [h1], rfl, hch⟩
    · rw [if_neg h2]
      exact ⟨_, _, rfl, by simp [h1], rfl, hch⟩

theorem UpdateBar_ok (tick : Bool) (pb : ProgressBar)
    (hch : pb.printChannelClosed = false) :
    ∃ pb1 f1, UpdateBar tick pb = .ok (pb1, f1) ∧
      pb1.currentProcess =
        (if pb.currentProcess = pb.total then pb.currentProcess
         else if pb.total < pb.currentProcess then pb.total
         else (pb.currentProcess + 1) % U32) ∧
      pb1.total = pb.total ∧ pb1.printChannelClosed = false := by
  by_cases h1 : pb.currentProcess = pb.total
  · exact ⟨pb, [], by simp only [UpdateBar, if_pos h1], by simp [h1], rfl, hch⟩
  · by_cases h2 : pb.total < pb.currentProcess
    · refine ⟨{ pb with currentProcess := pb.total }, [], ?_, ?_, rfl, hch⟩
      · simp only [UpdateBar, if_neg h1, if_pos h2]
      · simp [h1, h2]
    · simp only [UpdateBar, if_neg h1, if_neg h2]
      by_cases h3 : fillOf (updateProgress ((pb.currentProcess + 1) % U32) pb.total) pb.barLength ≠
          pb.lastFilledLength ∧ pb.tickerArmed = true ∧ tick = true
      · rw [if_pos h3, if_neg (by simp [hch])]
        exact ⟨_, _, rfl, by simp [h1, h2], rfl, hch⟩
      · rw [if_neg h3]
        exact ⟨_, _, rfl, by simp [h1, h2], rfl, hch⟩

theorem runTrace_adds (steps : List (Nat × Bool)) :
    ∀ pb : ProgressBar, pb.printChannelClosed = false →
    ∃ pb1 frames,
      runTrace (steps.map fun s => BarOp.add s.2 s.1) pb = .ok (pb1, frames) ∧
      pb1.currentProcess = addCounter pb.total pb.currentProcess (steps.map Prod.fst) ∧
      pb1.total = pb.total ∧ pb1.printChannelClosed = false := by
  induction steps with
  | nil =>
    intro pb hch
    exact ⟨pb, [], rfl, rfl, rfl, hch⟩
  | cons s rest ih =>
    intro pb hch
    obtain ⟨pbA, fA, hA, hcur, htot, hchA⟩ := AddSpecificTimes_ok s.2 s.1 pb hch
    obtain ⟨pb1, frames, hrun, hcur1, htot1, hch1⟩ := ih pbA hchA
    refine ⟨pb1, fA ++ frames, ?_, ?_, ?_, hch1⟩
    · simp only [List.map_cons, runTrace, runOp, hA, hrun]
    · rw [hcur1, hcur, htot, List.map_cons]
      by_cases hle : pb.total ≤ pb.currentProcess
      · rw [if_pos hle]
        simp [addCounter, if_pos hle]
      · rw [if_neg hle]
        simp [addCounter, if_neg hle]
    · rw [htot1, htot]

/-! ### Claim theorems -/

/-- C6: in the `AddSpecificTimes` update path the progress ratio is computed
by uint32 integer division of the counter by the total before the conversion
to float (`addProgress`), so for every state with `0 < currentProcess < total`
the computed percentage and the derived fill length are 0 instead of the true
proportion; the `UpdateBar` path (`updateProgress`) divides as floats and
yields the exact proportion, which is nonzero there. -/
theorem c6_truncation (c t : Nat) (bl : Int) (h1 : 0 < c) (h2 : c < t) :
    capPercentage (addProgress c t) = 0 ∧
    fillOf (addProgress c t) bl = 0 ∧
    capPercentage (updateProgress c t) = 100 * (c : ℚ) / (t : ℚ) ∧
    capPercentage (updateProgress c t) ≠ 0 := by
  have hdiv : c / t = 0 := Nat.div_eq_of_lt h2
  have haddP : addProgress c t = 0 := by
    rw [addProgress, hdiv]; norm_num
  have ht : 0 < t := lt_trans h1 h2
  have htQ : (0 : ℚ) < (t : ℚ) := by exact_mod_cast ht
  have hcQ : (0 : ℚ) < (c : ℚ) := by exact_mod_cast h1
  have hprop : updateProgress c t = (c : ℚ) / (t : ℚ) := rfl
  have hle : updateProgress c t * 100 ≤ 100 := by
    rw [hprop]
    have h : (c : ℚ) / (t : ℚ) ≤ 1 := by
      rw [div_le_one htQ]
      exact_mod_cast le_of_lt h2
    nlinarith
  refine ⟨?_, ?_, ?_, ?_⟩
  · rw [capPercentage, haddP]; norm_num
  · rw [fillOf, haddP, zero_mul]
    rfl
  · rw [capPercentage, if_neg (not_lt.mpr hle), hprop]
    ring
  · rw [capPercentage, if_neg (not_lt.mpr hle), hprop]
    have : 0 < (c : ℚ) / (t : ℚ) * 100 := by positivity
    exact ne_of_gt this

/-- C6 witness: the truncation at `currentProcess = 1`, `total = 2`,
`barLength = 40`. -/
theorem c6_witness :
    capPercentage (addProgress 1 2) = 0 ∧
    fillOf (addProgress 1 2) 40 = 0 ∧
    capPercentage (updateProgress 1 2) = 100 * ((1 : Nat) : ℚ) / ((2 : Nat) : ℚ) ∧
    capPercentage (updateProgress 1 2) ≠ 0 :=
  c6_truncation 1 2 40 (by decide) (by decide)

/-- C9: `Report` mutates no field of the `ProgressBar` — the state it returns
is identical to the state it was given, on both the error path and the
success path. -/
theorem c9_report_pure (pb : ProgressBar) (w : Int) : (Report pb w).1 = pb := by
  unfold Report
  split <;> rfl

/-- C8: `NewProgressBar` fails exactly when the configured time-zone name
does not resolve, in which case no bar is produced; when the zone resolves it
returns the fully initialised bar and no error; no other construction failure
exists. -/
theorem c8_construction (resolve : String → Bool) (t0 : Int) (name : String)
    (total : Nat) (bl : Int) (opts : List BarOption) :
    ((∃ e, NewProgressBar resolve t0 name total bl opts = .error e) ↔
      resolve (configuredBar name total bl opts).timezone = false) ∧
    (NewProgressBar resolve t0 name total bl opts = .ok (buildBar name total bl opts t0) ↔
      resolve (configuredBar name total bl opts).timezone = true) := by
  cases hr : resolve (configuredBar name total bl opts).timezone <;>
    simp [NewProgressBar, hr]

/-- C2 (code bug): on a bar with `total = 10` overshot to `currentProcess = 11`
by a single `AddSpecificTimes(11)`, the first `Complete()` call emits no frame
(and sets neither `endTime` nor the `complete` flag) yet closes the print
channel, so a second `Complete()` call closes the already-closed channel — a
Go run-time panic, not a safe no-op. -/
theorem c2_bug :
    traceErr [BarOp.add false 11, BarOp.complete 1, BarOp.complete 2]
        (buildBar "x" 10 40 [] 0) = some GoPanic.doubleClose ∧
    traceFrames [BarOp.add false 11, BarOp.complete 1]
        (buildBar "x" 10 40 [] 0) = some [] ∧
    (finalBar [BarOp.add false 11, BarOp.complete 1] (buildBar "x" 10 40 [] 0)).map
        (fun pb => (pb.complete, pb.endTime, pb.printChannelClosed)) =
      some (false, 0, true) := by
  exact ⟨by decide, by decide, by decide⟩

/-- C3 counterexample: after `NewProgressBar "index" 100 40` and 100
sequential `UpdateBar()` calls, the `complete` flag is still `false` and
`Report` returns the "not yet complete" error — completion is not automatic,
contrary to the claim. -/
theorem c3_cex :
    (finalBar (List.replicate 100 (BarOp.update false)) (buildBar "index" 100 40 [] 0)).map
        (fun pb => (pb.complete, reportErrMsg pb 32)) =
      some (false, some "progress is not yet complete") := by
  decide

/-- C3 amended: after `NewProgressBar "index" 100 40` and 100 sequential
`UpdateBar()` calls the counter has reached the total but `complete` remains
`false` and `Report` fails; only an explicit `Complete()` call sets
`complete = true`, after which `Report` succeeds. -/
theorem c3_amended :
    (finalBar (List.replicate 100 (BarOp.update false)) (buildBar "index" 100 40 [] 0)).map
        (fun pb => (pb.currentProcess, pb.complete, reportErrMsg pb 32)) =
      some (100, false, some "progress is not yet complete") ∧
    (finalBar (List.replicate 100 (BarOp.update false) ++ [BarOp.complete 9])
        (buildBar "index" 100 40 [] 0)).map
        (fun pb => (pb.complete, pb.currentProcess, reportOk pb 32)) =
      some (true, 100, some { taskName := "index", startTime := 0, endTime := 9,
                              elapsed := 9, totalTasks := 100, completedTasks := 100,
                              valueWidth := 32 }) := by
  exact ⟨by decide, by decide⟩

/-- C5 (code bug): on a bar with `total = 10`, `barLength = 40`, the sequence
`UpdateBar(); AddSpecificTimes(1); Complete()` sends the frames
`(4, 10%), (0, 0%), (40, 100%)`: the integer-division truncation in
`AddSpecificTimes` emits a frame whose fill length drops from 4 to 0, so the
frame sequence is not non-decreasing in `filledLength`. -/
theorem c5_bug :
    traceFrames [BarOp.update true, BarOp.add true 1, BarOp.complete 5]
        (buildBar "x" 10 40 [] 0) =
      some [⟨4, 10⟩, ⟨0, 0⟩, ⟨40, 100⟩] ∧
    framesMonotoneB [⟨4, 10⟩, ⟨0, 0⟩, ⟨40, 100⟩] = false := by
  exact ⟨by decide, by decide⟩

/-- C1 counterexample: on a fresh bar with `total = 10`, a single
`AddSpecificTimes(20)` call (step sum 20 > 10) leaves `currentProcess = 20`,
exceeding the total — the claim that the final value equals exactly the total
and never exceeds it is false. -/
theorem c1_cex :
    (finalBar [BarOp.add false 20] (buildBar "x" 10 40 [] 0)).map
        (fun pb => pb.currentProcess) = some 20 ∧
    (buildBar "x" 10 40 [] 0).total = 10 := by
  exact ⟨by decide, by decide⟩

/-- C1 (amended): for every sequence of `AddSpecificTimes` calls on a fresh
bar with positive total whose step sum exceeds the total (without uint32
wrap-around), the final `currentProcess` is at least the total — it may
exceed it when the last call overshot — and any one further
`AddSpecificTimes` call clamps it to exactly the total; in particular, once
`currentProcess` has reached the total, further calls leave it at exactly the
total and emit nothing. -/
theorem c1_lazy_clamp (name : String) (t0 bl : Int) (total : Nat)
    (steps : List (Nat × Bool)) (htot : 0 < total)
    (hover : total < (steps.map Prod.fst).sum)
    (hwrap : (steps.map Prod.fst).sum < U32) :
    ∃ pb1 frames,
      runTrace (steps.map fun s => BarOp.add s.2 s.1) (buildBar name total bl [] t0) =
        .ok (pb1, frames) ∧
      total ≤ pb1.currentProcess ∧
      (∀ tb s, ∃ pb2, AddSpecificTimes tb s pb1 = .ok (pb2, []) ∧
        pb2.currentProcess = total) := by
  have h0ch : (buildBar name total bl [] t0).printChannelClosed = false := rfl
  obtain ⟨pb1, frames, hrun, hcur, htot1, hch1⟩ :=
    runTrace_adds steps (buildBar name total bl [] t0) h0ch
  have h0cur : (buildBar name total bl [] t0).currentProcess = 0 := rfl
  have h0tot : (buildBar name total bl [] t0).total = total := rfl
  rw [h0cur, h0tot] at hcur
  rw [h0tot] at htot1
  have hge : total ≤ pb1.currentProcess := by
    rw [hcur]
    exact addCounter_reaches total (steps.map Prod.fst) 0 htot
      (by simpa using hover) (by simpa using hwrap)
  refine ⟨pb1, frames, hrun, hge, ?_⟩
  intro tb s
  have hge2 : pb1.total ≤ pb1.currentProcess := by rw [htot1]; exact hge
  refine ⟨{ pb1 with currentProcess := pb1.total }, ?_, ?_⟩
  · unfold AddSpecificTimes
    rw [if_pos hge2]
  · simp [htot1]

/-- C1 witness: a fresh bar with `total = 10` and the single overshooting
call `AddSpecificTimes(20)`. -/
theorem c1_witness :
    ∃ pb1 frames,
      runTrace ([((20 : Nat), false)].map fun s => BarOp.add s.2 s.1)
        (buildBar "x" 10 40 [] 0) = .ok (pb1, frames) ∧
      10 ≤ pb1.currentProcess ∧
      (∀ tb s, ∃ pb2, AddSpecificTimes tb s pb1 = .ok (pb2, []) ∧
        pb2.currentProcess = 10) :=
  c1_lazy_clamp "x" 0 40 10 [(20, false)] (by decide) (by decide) (by decide)

/-- C4 counterexample: on a fresh bar with `total = 2`, `barLength = 40` and
the ticker fired, `UpdateBar()` emits the frame `(20, 50%)` while
`AddSpecificTimes(1)` emits no frame at all (integer division truncates its
fill length to 0, matching `lastFilledLength`), so the two operations are not
behaviourally equivalent. -/
theorem c4_cex :
    opFrames (BarOp.update true) (buildBar "x" 2 40 [] 0) = some [⟨20, 50⟩] ∧
    opFrames (BarOp.add true 1) (buildBar "x" 2 40 [] 0) = some [] := by
  exact ⟨by decide, by decide⟩

/-- C4 (amended): `UpdateBar()` and `AddSpecificTimes(1)` agree on the
resulting counter value from every state with an open print channel, though
their emitted frames can differ because of the integer-division truncation in
`AddSpecificTimes`. -/
theorem c4_counter_equiv (pb : ProgressBar) (tick : Bool)
    (hch : pb.printChannelClosed = false) :
    ∃ pb1 f1 pb2 f2,
      UpdateBar tick pb = .ok (pb1, f1) ∧
      AddSpecificTimes tick 1 pb = .ok (pb2, f2) ∧
      pb1.currentProcess = pb2.currentProcess := by
  obtain ⟨pb1, f1, h1, hcur1, _, _⟩ := UpdateBar_ok tick pb hch
  obtain ⟨pb2, f2, h2, hcur2, _, _⟩ := AddSpecificTimes_ok tick 1 pb hch
  refine ⟨pb1, f1, pb2, f2, h1, h2, ?_⟩
  rw [hcur1, hcur2]
  by_cases ha : pb.currentProcess = pb.total
  · simp [ha]
  · by_cases hb : pb.total < pb.currentProcess
    · simp [ha, hb, le_of_lt hb]
    · have hc : ¬ pb.total ≤ pb.currentProcess :=
        fun h => ha (le_antisymm (not_lt.mp hb) h)
      simp [ha, hb, hc]

/-- C4 witness: counter agreement at a concrete state. -/
theorem c4_witness :
    ∃ pb1 f1 pb2 f2,
      UpdateBar true (buildBar "x" 5 10 [] 0) = .ok (pb1, f1) ∧
      AddSpecificTimes true 1 (buildBar "x" 5 10 [] 0) = .ok (pb2, f2) ∧
      pb1.currentProcess = pb2.currentProcess :=
  c4_counter_equiv (buildBar "x" 5 10 [] 0) true (by decide)

theorem UpdateBar_completeInv {tick : Bool} {pb pb1 : ProgressBar} {f1 : List barMessage}
    (h : UpdateBar tick pb = .ok (pb1, f1)) (hinv : CompleteInv pb) : CompleteInv pb1 := by
  simp only [UpdateBar] at h
  split_ifs at h
  all_goals injection h with h
  all_goals injection h with h hf
  all_goals subst h
  all_goals intro hc
  all_goals first
    | rfl
    | exact hinv hc
    | exact absurd (hinv hc) (by assumption)

theorem AddSpecificTimes_completeInv {tb : Bool} {s : Nat} {pb pb1 : ProgressBar}
    {f1 : List barMessage}
    (h : AddSpecificTimes tb s pb = .ok (pb1, f1)) (hinv : CompleteInv pb) :
    CompleteInv pb1 := by
  simp only [AddSpecificTimes] at h
  split_ifs at h
  all_goals injection h with h
  all_goals injection h with h hf
  all_goals subst h
  all_goals intro hc
  all_goals first
    | rfl
    | exact hinv hc
    | exact absurd (le_of_eq (hinv hc).symm) (by assumption)

theorem Complete_completeInv {t : Int} {pb pb1 : ProgressBar} {f1 : List barMessage}
    (h : Complete t pb = .ok (pb1, f1)) (hinv : CompleteInv pb) : CompleteInv pb1 := by
  simp only [Complete] at h
  split_ifs at h
  all_goals injection h with h
  all_goals injection h with h hf
  all_goals subst h
  all_goals intro hc
  all_goals first
    | rfl
    | exact hinv hc

theorem runOp_completeInv {op : BarOp} {pb pb1 : ProgressBar} {f1 : List barMessage}
    (h : runOp op pb = .ok (pb1, f1)) (hinv : CompleteInv pb) : CompleteInv pb1 := by
  cases op with
  | update tick => exact UpdateBar_completeInv h hinv
  | add tb s => exact AddSpecificTimes_completeInv h hinv
  | complete t => exact Complete_completeInv h hinv

theorem runTrace_completeInv :
    ∀ (ops : List BarOp) {pb pb1 : ProgressBar} {frames : List barMessage},
    runTrace ops pb = .ok (pb1, frames) → CompleteInv pb → CompleteInv pb1 := by
  intro ops
  induction ops with
  | nil =>
    intro pb pb1 frames h hinv
    simp only [runTrace] at h
    injection h with h
    injection h with h hf
    subst h
    exact hinv
  | cons op rest ih =>
    intro pb pb1 frames h hinv
    simp only [runTrace] at h
    cases hop : runOp op pb with
    | error e =>
      rw [hop] at h
      exact absurd h (by simp)
    | ok q =>
      obtain ⟨pbA, fA⟩ := q
      rw [hop] at h
      dsimp only at h
      cases hrun : runTrace rest pbA with
      | error e =>
        rw [hrun] at h
        exact absurd h (by simp)
      | ok q2 =>
        obtain ⟨pbB, fB⟩ := q2
        rw [hrun] at h
        simp only at h
        injection h with h
        injection h with h hf
        subst h
        exact ih hrun (runOp_completeInv hop hinv)

theorem reachable_completeInv {pb : ProgressBar} (h : Reachable pb) : CompleteInv pb := by
  obtain ⟨resolve, t0, name, total, bl, opts, ops, pb0, frames, hnew, hrun⟩ := h
  have h0 : pb0.complete = false := by
    unfold NewProgressBar at hnew
    split_ifs at hnew
    injection hnew with hnew
    rw [← hnew]
    exact buildBar_complete name total bl opts t0
  refine runTrace_completeInv ops hrun ?_
  intro hc
  rw [h0] at hc
  cases hc

/-- C7: `Report` on a reachable bar returns the descriptive "not yet
complete" error (and prints nothing) whenever the `complete` flag is false;
once the bar is complete it returns the report data, whose "Completed Tasks"
value equals the total and whose elapsed time is `endTime - startTime`. -/
theorem c7_report (pb : ProgressBar) (w : Int) (hr : Reachable pb) :
    (pb.complete = false → (Report pb w).2 = .error "progress is not yet complete") ∧
    (pb.complete = true → ∃ r, (Report pb w).2 = .ok r ∧
      r.completedTasks = pb.total ∧ r.totalTasks = pb.total ∧
      r.elapsed = pb.endTime - pb.startTime) := by
  constructor
  · intro hc
    simp [Report, hc]
  · intro hc
    have hcur : pb.currentProcess = pb.total := reachable_completeInv hr hc
    refine ⟨{ taskName := pb.name, startTime := pb.startTime, endTime := pb.endTime,
              elapsed := pb.endTime - pb.startTime, totalTasks := pb.total,
              completedTasks := pb.currentProcess,
              valueWidth := if w < 32 then 32 else w }, ?_, ?_, rfl, rfl⟩
    · simp [Report, hc]
    · exact hcur

/-- C7 witness: the completed bar `pbC7`, reachable by
`NewProgressBar "x" 10 40`, `AddSpecificTimes(3)`, `Complete()`. -/
theorem c7_witness :
    (pbC7.complete = false → (Report pbC7 5).2 = .error "progress is not yet complete") ∧
    (pbC7.complete = true → ∃ r, (Report pbC7 5).2 = .ok r ∧
      r.completedTasks = pbC7.total ∧ r.totalTasks = pbC7.total ∧
      r.elapsed = pbC7.endTime - pbC7.startTime) :=
  c7_report pbC7 5
    ⟨fun _ => true, 0, "x", 10, 40, [], [BarOp.add false 3, BarOp.complete 7],
     buildBar "x" 10 40 [] 0, [⟨40, (100 : ℚ)⟩], by decide, by decide⟩

/-- C10: with no options, `NewProgressBar` builds the bar with precision 2,
timezone "Asia/Shanghai", update interval 1000 ms, and the bright-cyan bar
color; each of the four options overrides exactly its own field and leaves
the other defaults in place. -/
theorem c10_defaults (resolve : String → Bool) (name : String) (total : Nat)
    (bl : Int) (t0 : Int) (h : resolve "Asia/Shanghai" = true) :
    NewProgressBar resolve t0 name total bl [] = .ok (buildBar name total bl [] t0) ∧
    configFields (buildBar name total bl [] t0) = (2, "Asia/Shanghai", 1000, BrightCyan) ∧
    (∀ p : Int, configFields (buildBar name total bl [BarOption.withTracking p] t0) =
      (p, "Asia/Shanghai", 1000, BrightCyan)) ∧
    (∀ z : String, configFields (buildBar name total bl [BarOption.withTimeZone z] t0) =
      (2, z, 1000, BrightCyan)) ∧
    (∀ i : Int, configFields (buildBar name total bl [BarOption.withTimeControl i] t0) =
      (2, "Asia/Shanghai", i, BrightCyan)) ∧
    (∀ c : String, configFields (buildBar name total bl [BarOption.withDisplay c] t0) =
      (2, "Asia/Shanghai", 1000, c)) := by
  refine ⟨?_, rfl, fun p => rfl, fun z => rfl, fun i => ?_, fun c => rfl⟩
  · have htz : (configuredBar name total bl []).timezone = "Asia/Shanghai" := rfl
    simp [NewProgressBar, htz, h]
  · simp only [buildBar, configFields, configuredBar, List.foldl, applyOption, defaultBar]
    split <;> rfl

/-- C10 witness: concrete defaults and overrides for
`NewProgressBar "x" 5 10` with an all-resolving zone set. -/
theorem c10_witness :
    NewProgressBar (fun _ => true) 0 "x" 5 10 [] = .ok (buildBar "x" 5 10 [] 0) ∧
    configFields (buildBar "x" 5 10 [] 0) = (2, "Asia/Shanghai", 1000, BrightCyan) ∧
    (∀ p : Int, configFields (buildBar "x" 5 10 [BarOption.withTracking p] 0) =
      (p, "Asia/Shanghai", 1000, BrightCyan)) ∧
    (∀ z : String, configFields (buildBar "x" 5 10 [BarOption.withTimeZone z] 0) =
      (2, z, 1000, BrightCyan)) ∧
    (∀ i : Int, configFields (buildBar "x" 5 10 [BarOption.withTimeControl i] 0) =
      (2, "Asia/Shanghai", i, BrightCyan)) ∧
    (∀ c : String, configFields (buildBar "x" 5 10 [BarOption.withDisplay c] 0) =
      (2, "Asia/Shanghai", 1000, c)) :=
  c10_defaults (fun _ => true) "x" 5 10 0 rfl

end Utilhub
